import Mathlib

/-!
Verification of the aggregation-and-rendering core of the game-collection
visualization dashboard (src/visualization_dashboard.py).

The embedding is shallow and executable:
* a metadata value is a dynamic value (string, integer, or the null value);
* a metadata record is an association list from field names to values, so a
  field can be absent (no entry) or present with a null value;
* Python dictionaries used as counters are association lists in insertion
  order, since the source relies on dictionary insertion order;
* `sorted` with a key and `reverse=True` is a stable insertion sort
  (Mathlib `List.insertionSort`), matching the stability of Python sorting;
* fallible operations (the `/` of `count / max` which raises on a zero
  divisor, and the `:20s` format directive which raises on non-string
  values) return `Option`, with `none` standing for a raised exception;
* arithmetic of `int((count / maxCount) * 20)` is modelled exactly over the
  rationals, i.e. as the natural-number floor division `count * 20 / maxCount`;
* printed output is modelled as a list of structured lines, one constructor
  per `print` statement shape of the source (bundling the four prints of one
  search-result iteration into one structured item).
-/

/-- A dynamic metadata value as it can occur in a record: a string, an
integer, or the Python null value `None`. -/
inductive Value where
  | str (s : String)
  | int (n : Int)
  | null
deriving DecidableEq, Repr

/-- Python `str(v)`: identity on strings, decimal representation of
integers, and the literal `"None"` for the null value. -/
def Value.toStr : Value → String
  | .str s => s
  | .int n => toString n
  | .null => "None"

/-- The default value `"Unknown"` used by every `metadata.get(field, 'Unknown')`
call of the source. -/
def unknown : Value := Value.str "Unknown"

/-- One metadata record: an association list from field names to values.
A field is absent when it has no entry; it can also be present with
value `Value.null`. -/
abbrev MetadataRecord := List (String × Value)

/-- Python `metadata.get(field, dflt)`: the stored value when the key is
present (even when that value is null), the default otherwise. -/
def mget (m : MetadataRecord) (field : String) (dflt : Value) : Value :=
  match m.lookup field with
  | some v => v
  | none => dflt

/-- Python `d[k] = d.get(k, 0) + 1` on an insertion-ordered dictionary:
increment the count of an existing key in place, or append the key at the
end with count 1. -/
def bump [DecidableEq κ] (k : κ) : List (κ × Nat) → List (κ × Nat)
  | [] => [(k, 1)]
  | (a, c) :: ps => if a = k then (a, c + 1) :: ps else (a, c) :: bump k ps

/-- The four raw counters built by the aggregation loop of
`get_collection_stats` (lines 50-70), before any sorting. -/
structure RawTables where
  platforms : List (Value × Nat)
  years : List (String × Nat)
  genres : List (Value × Nat)
  publishers : List (Value × Nat)
deriving DecidableEq, Repr

/-- One iteration of the `for metadata in all_docs['metadatas']` loop:
count the record under each of the four tracked fields, defaulting absent
fields to `"Unknown"`, and coercing the year value with `str(...)`. -/
def countRecord (t : RawTables) (m : MetadataRecord) : RawTables :=
  { platforms := bump (mget m "Platform" unknown) t.platforms
    years := bump (mget m "YearOfRelease" unknown).toStr t.years
    genres := bump (mget m "Genre" unknown) t.genres
    publishers := bump (mget m "Publisher" unknown) t.publishers }

/-- The whole aggregation loop over all records. -/
def tally (records : List MetadataRecord) : RawTables :=
  records.foldl countRecord ⟨[], [], [], []⟩

/-- Python `sorted(d.items(), key=lambda x: x[1], reverse=True)`: a stable
sort by non-increasing count. -/
def sortDesc {κ : Type} (l : List (κ × Nat)) : List (κ × Nat) :=
  l.insertionSort (fun a b => b.2 ≤ a.2)

/-- Python string `<`: lexicographic comparison of the code-point
sequences of the two strings. -/
def charListLt : List Char → List Char → Bool
  | [], [] => false
  | [], _ :: _ => true
  | _ :: _, [] => false
  | a :: as, b :: bs =>
    if a.toNat < b.toNat then true
    else if b.toNat < a.toNat then false
    else charListLt as bs

/-- Python string `<=`, as the negation of the reversed strict comparison. -/
def strLe (x y : String) : Bool :=
  !(charListLt y.data x.data)

/-- Python `sorted(d.items())` on dictionary items: a stable sort by the
string key in ascending lexicographic order (keys of a dictionary are
distinct, so the tuple comparison of the source never reaches the count). -/
def sortAsc (l : List (String × Nat)) : List (String × Nat) :=
  l.insertionSort (fun a b => strLe a.1 b.1 = true)

/-- The `stats` dictionary built by `get_collection_stats` when the
collection is present: the total and the four post-processed tables
(all empty when the total is zero, in which case the source stores no
table keys at all and every later `stats.get(..., {})` yields `{}`). -/
structure CollectionStats where
  total_games : Nat
  platforms : List (Value × Nat)
  years : List (String × Nat)
  genres : List (Value × Nat)
  publishers : List (Value × Nat)
deriving DecidableEq, Repr

/-- Lines 40-80 of the source for a present collection: keep the total,
and when it is positive sort the platform and genre tables by descending
count, the year table by ascending key, and the publisher table by
descending count truncated to the first 10 entries. -/
def collection_stats (records : List MetadataRecord) : CollectionStats :=
  let total := records.length
  if 0 < total then
    let t := tally records
    { total_games := total
      platforms := sortDesc t.platforms
      years := sortAsc t.years
      genres := sortDesc t.genres
      publishers := (sortDesc t.publishers).take 10 }
  else
    { total_games := total, platforms := [], years := [], genres := [], publishers := [] }

/-- `get_collection_stats`: `none` models the empty dictionary returned when
`self.collection` is `None`; otherwise the statistics of the records. -/
def get_collection_stats (collection : Option (List MetadataRecord)) : Option CollectionStats :=
  collection.map collection_stats

/-- One printed line of the text dashboard, one constructor per `print`
shape of `text_dashboard`. -/
inductive Line where
  | banner
  | noData
  | statsHeader
  | totalGames (n : Nat)
  | platformHeader
  | genreHeader
  | yearHeader
  | publisherHeader
  | barLine (label : String) (bar : Nat) (count : Nat)
  | publisherLine (label : String) (count : Nat)
  | summaryHeader
  | yearRange (lo hi : Nat)
  | uniquePlatforms (n : Nat)
  | uniqueGenres (n : Nat)
  | uniquePublishers (n : Nat)
  | footer
deriving DecidableEq, Repr

/-- The `:20s` format directive applied to a dynamic value: it succeeds
only on strings; on an integer or null value Python raises, modelled
as `none`. -/
def fmtS : Value → Option String
  | .str s => some s
  | _ => none

/-- `int((count / maxCount) * 20)`: floor division, raising (modelled as
`none`) when the divisor is zero, exactly as Python `/` does. -/
def barLen (count maxCount : Nat) : Option Nat :=
  if maxCount = 0 then none else some (count * 20 / maxCount)

/-- Python `max(...)` over the counts of a table (used only on nonempty
tables, where the fold below agrees with Python `max`). -/
def maxVals (l : List Nat) : Nat :=
  l.foldr max 0

/-- The body of a platform or genre bar loop: for each displayed pair,
compute the bar from the given divisor, then format the label with `:20s`
(which requires a string value). Each loop iteration can raise. -/
def renderBarsV (maxCount : Nat) : List (Value × Nat) → Option (List Line)
  | [] => some []
  | p :: ps => do
    let b ← barLen p.2 maxCount
    let label ← fmtS p.1
    let rest ← renderBarsV maxCount ps
    pure (Line.barLine label b p.2 :: rest)

/-- The body of the year bar loop: labels are already strings. -/
def renderBars (maxCount : Nat) : List (String × Nat) → Option (List Line)
  | [] => some []
  | p :: ps => do
    let b ← barLen p.2 maxCount
    let rest ← renderBars maxCount ps
    pure (Line.barLine p.1 b p.2 :: rest)

/-- Lines 100-106: the platform section. Displayed entries are the first
10 of the stored table; the divisor is `max(platforms.values())`, the
maximum over the whole stored table. -/
def platformSection (platforms : List (Value × Nat)) : Option (List Line) :=
  if platforms.isEmpty then some []
  else
    (renderBarsV (maxVals (platforms.map (fun p => p.2))) (platforms.take 10)).map
      (fun bars => Line.platformHeader :: bars)

/-- Lines 109-115: the genre section, same shape as the platform section. -/
def genreSection (genres : List (Value × Nat)) : Option (List Line) :=
  if genres.isEmpty then some []
  else
    (renderBarsV (maxVals (genres.map (fun p => p.2))) (genres.take 10)).map
      (fun bars => Line.genreHeader :: bars)

/-- Lines 118-126: the year section. Displayed entries are the last 10 of
the table re-sorted ascending (`sorted(years.items())[-10:]`); the divisor
is `max(years.values())`, the maximum over the whole stored table. -/
def yearSection (years : List (String × Nat)) : Option (List Line) :=
  if years.isEmpty then some []
  else
    (renderBars (maxVals (years.map (fun p => p.2)))
        ((sortAsc years).drop (years.length - 10))).map
      (fun bars => Line.yearHeader :: bars)

/-- Lines 129-134: the publisher section, a plain list of the first 5
entries (plain f-string interpolation coerces any value with `str`). -/
def publisherSection (publishers : List (Value × Nat)) : List Line :=
  if publishers.isEmpty then []
  else
    Line.publisherHeader ::
      (publishers.take 5).map (fun p => Line.publisherLine p.1.toStr p.2)

/-- Python `y.isdigit()` for the strings arising here: nonempty and made
of decimal digits only. -/
def pyIsDigit (s : String) : Bool :=
  !s.data.isEmpty && s.data.all Char.isDigit

/-- Python `int(y)` on a string of decimal digits. -/
def digitsToNat (s : String) : Nat :=
  s.data.foldl (fun n c => n * 10 + (c.toNat - 48)) 0

/-- Line 138: `[int(y) for y in years.keys() if y != 'Unknown' and y.isdigit()]`. -/
def year_values (years : List (String × Nat)) : List Nat :=
  (years.map (fun p => p.1)).filterMap
    (fun y => if !(y == "Unknown") && pyIsDigit y then some (digitsToNat y) else none)

/-- Python `min` over a nonempty list (0 on the empty list, never used there). -/
def listMin : List Nat → Nat
  | [] => 0
  | x :: xs => xs.foldl Nat.min x

/-- Python `max` over a nonempty list (0 on the empty list, never used there). -/
def listMax : List Nat → Nat
  | [] => 0
  | x :: xs => xs.foldl Nat.max x

/-- Lines 136-145: the summary block, emitted only when the year table is
nonempty and at least one year key passes the digit filter. -/
def summarySection (s : CollectionStats) : List Line :=
  if s.years.isEmpty then []
  else
    let yv := year_values s.years
    if yv.isEmpty then []
    else
      [Line.summaryHeader,
       Line.yearRange (listMin yv) (listMax yv),
       Line.uniquePlatforms s.platforms.length,
       Line.uniqueGenres s.genres.length,
       Line.uniquePublishers s.publishers.length]

/-- `text_dashboard`: the full dashboard output. When the stats dictionary
is empty (missing collection) only the no-data notice follows the banner
and the function returns early; otherwise the total line, the four
sections and the summary are emitted in source order. `none` models an
uncaught exception inside one of the bar loops. -/
def text_dashboard (collection : Option (List MetadataRecord)) : Option (List Line) :=
  match get_collection_stats collection with
  | none => some [Line.banner, Line.noData]
  | some s => do
    let pl ← platformSection s.platforms
    let gl ← genreSection s.genres
    let yl ← yearSection s.years
    pure ([Line.banner, Line.statsHeader, Line.totalGames s.total_games]
        ++ pl ++ gl ++ yl
        ++ publisherSection s.publishers
        ++ summarySection s
        ++ [Line.footer])

/-- One printed item of the search-result rendering in `test_search`;
the four prints of one loop iteration are bundled into one `entry`. -/
inductive SLine where
  | topResults
  | entry (i : Nat) (name platform year genre : String)
  | noResults
deriving DecidableEq, Repr

/-- The loop `for i, metadata in enumerate(results['metadatas'][0], 1)`:
`i` is the 1-based position, each field defaults to `"Unknown"` when
absent and is interpolated through `str`. -/
def searchEntries (i : Nat) : List MetadataRecord → List SLine
  | [] => []
  | m :: ms =>
    SLine.entry (i + 1) (mget m "Name" unknown).toStr (mget m "Platform" unknown).toStr
      (mget m "YearOfRelease" unknown).toStr (mget m "Genre" unknown).toStr
      :: searchEntries (i + 1) ms

/-- Lines 166-174 of `test_search`: the rendering of a ranked result list
(the query header printed before the call is outside this model). An empty
list yields only the no-results notice. -/
def test_search (results : List MetadataRecord) : List SLine :=
  if results.isEmpty then [SLine.noResults]
  else SLine.topResults :: searchEntries 0 results

/-- The total count held in a frequency table. -/
def sumCounts {κ : Type} (l : List (κ × Nat)) : Nat :=
  (l.map (fun p => p.2)).sum

/-- The count a frequency table stores under a key (0 when absent; summed
over duplicates, which never occur in tables built by `bump`). -/
def tcount [DecidableEq κ] : List (κ × Nat) → κ → Nat
  | [], _ => 0
  | p :: ps, k => (if p.1 = k then p.2 else 0) + tcount ps k

/-! ### Concrete inputs used by counterexamples and witnesses -/

/-- A record holding only a year value. -/
def yearRec (s : String) : MetadataRecord := [("YearOfRelease", Value.str s)]

/-- Twelve records over eleven distinct years, the earliest year holding
the maximal count: the year section then drops the maximal year but keeps
its count as the divisor. -/
def elevenYearRecs : List MetadataRecord :=
  [yearRec "1990", yearRec "1990", yearRec "1991", yearRec "1992", yearRec "1993",
   yearRec "1994", yearRec "1995", yearRec "1996", yearRec "1997", yearRec "1998",
   yearRec "1999", yearRec "2000"]

/-- A record holding only a publisher value. -/
def pubRec (s : String) : MetadataRecord := [("Publisher", Value.str s)]

/-- Eleven records with eleven distinct publishers. -/
def elevenPubRecs : List MetadataRecord :=
  [pubRec "P01", pubRec "P02", pubRec "P03", pubRec "P04", pubRec "P05", pubRec "P06",
   pubRec "P07", pubRec "P08", pubRec "P09", pubRec "P10", pubRec "P11"]

/-- Two records whose year keys are "85" and "1998". -/
def shortYearRecs : List MetadataRecord := [yearRec "85", yearRec "1998"]

/-- A fully populated single record. -/
def demoRecord : MetadataRecord :=
  [("Name", Value.str "Gran Turismo"), ("Platform", Value.str "PS1"),
   ("YearOfRelease", Value.int 1997), ("Genre", Value.str "Racing")]

/-! ### Counterexamples and closed theorems -/

/-- C1 counterexample: on `elevenYearRecs` the rendered year section shows
ten entries of count 1 whose bars all have length 10, although the maximum
count among the displayed entries is 1, so the claimed formula
floor(count / maxCountInDisplayedSet * 20) would give 20; in particular the
top entry of the rendered year section does not have a bar of 20 units. -/
theorem c1_counterexample :
    yearSection (collection_stats elevenYearRecs).years
      = some [Line.yearHeader,
        Line.barLine "1991" 10 1, Line.barLine "1992" 10 1, Line.barLine "1993" 10 1,
        Line.barLine "1994" 10 1, Line.barLine "1995" 10 1, Line.barLine "1996" 10 1,
        Line.barLine "1997" 10 1, Line.barLine "1998" 10 1, Line.barLine "1999" 10 1,
        Line.barLine "2000" 10 1]
    ∧ maxVals (((sortAsc (collection_stats elevenYearRecs).years).drop
          ((collection_stats elevenYearRecs).years.length - 10)).map (fun p => p.2)) = 1
    ∧ (10 : Nat) ≠ 1 * 20 / 1 := by
  refine ⟨by decide, by decide, by decide⟩

/-- C2 counterexample: a present collection with zero records renders the
total-count line `Total Games: 0` and not the no-data notice, contradicting
the claim that a zero total emits a single no-data notice and nothing
further. -/
theorem c2_counterexample :
    text_dashboard (some [])
      = some [Line.banner, Line.statsHeader, Line.totalGames 0, Line.footer]
    ∧ Line.noData ∉ [Line.banner, Line.statsHeader, Line.totalGames 0, Line.footer]
    ∧ Line.totalGames 0 ∈ [Line.banner, Line.statsHeader, Line.totalGames 0, Line.footer] := by
  refine ⟨by decide, by decide, by decide⟩

/-- C2 amended: the no-data notice is emitted (with nothing after it)
exactly when the collection itself is missing; a present collection with
zero records instead renders the header, the total-count line with 0, no
bar-chart sections, and no no-data notice. -/
theorem c2_amended :
    text_dashboard none = some [Line.banner, Line.noData]
    ∧ text_dashboard (some [])
        = some [Line.banner, Line.statsHeader, Line.totalGames 0, Line.footer] := by
  refine ⟨by decide, by decide⟩

/-- C3 counterexample: with eleven distinct publishers the stored publisher
table is truncated to ten entries, whose counts sum to 10 while the record
count is 11. -/
theorem c3_counterexample :
    sumCounts (collection_stats elevenPubRecs).publishers = 10
    ∧ elevenPubRecs.length = 11 ∧ (10 : Nat) ≠ 11 := by
  refine ⟨by decide, by decide, by decide⟩

/-- C4 counterexample: a record whose `Platform` key is present with a null
value is counted under the null-value bucket, and the `"Unknown"` bucket of
the platform table stays at count 0. -/
theorem c4_counterexample :
    (tally [[("Platform", Value.null)]]).platforms = [(Value.null, 1)]
    ∧ tcount (tally [[("Platform", Value.null)]]).platforms unknown = 0 := by
  refine ⟨by decide, by decide⟩

/-- C5 counterexample: with year keys "85" and "1998" the summary displays
the range 85 - 1998, so the two-digit key "85" (not a 4-digit integer)
participates in the minimum instead of being ignored. -/
theorem c5_counterexample :
    summarySection (collection_stats shortYearRecs)
      = [Line.summaryHeader, Line.yearRange 85 1998, Line.uniquePlatforms 1,
         Line.uniqueGenres 1, Line.uniquePublishers 1]
    ∧ (85 : Nat) < 1000 := by
  refine ⟨by decide, by decide⟩

/-- C6: a record with `YearOfRelease` given as the integer 1998 and a
record with the string "1998" fall into a single year bucket whose count
is 2, because year values are coerced with `str` before counting. -/
theorem c6_year_coercion :
    (tally [[("YearOfRelease", Value.int 1998)], [("YearOfRelease", Value.str "1998")]]).years
      = [("1998", 2)] := by
  decide

/-- C9 counterexample: the bar computation is not special-cased at a zero
divisor; with maximum count 0 it raises a division error (modelled as
`none`) instead of emitting a zero-length bar. -/
theorem c9_counterexample :
    barLen 1 0 = none ∧ ¬ barLen 1 0 = some 0 := by
  refine ⟨by decide, by decide⟩

/-! ### Helper lemmas: sums of table counts -/

theorem sumCounts_nil {κ : Type} : sumCounts ([] : List (κ × Nat)) = 0 := rfl

theorem sumCounts_cons {κ : Type} (p : κ × Nat) (ps : List (κ × Nat)) :
    sumCounts (p :: ps) = p.2 + sumCounts ps := rfl

theorem sumCounts_bump {κ : Type} [DecidableEq κ] (k : κ) (l : List (κ × Nat)) :
    sumCounts (bump k l) = sumCounts l + 1 := by
  induction l with
  | nil => rfl
  | cons p ps ih =>
    obtain ⟨a, c⟩ := p
    by_cases h : a = k
    · simp [bump, h, sumCounts_cons]
      omega
    · simp [bump, h, sumCounts_cons, ih]
      omega

theorem sumCounts_append {κ : Type} (l₁ l₂ : List (κ × Nat)) :
    sumCounts (l₁ ++ l₂) = sumCounts l₁ + sumCounts l₂ := by
  simp [sumCounts]

theorem sumCounts_take_le {κ : Type} (n : Nat) (l : List (κ × Nat)) :
    sumCounts (l.take n) ≤ sumCounts l := by
  have h : sumCounts l = sumCounts (l.take n) + sumCounts (l.drop n) := by
    conv_lhs => rw [← List.take_append_drop n l]
    exact sumCounts_append _ _
  omega

theorem sumCounts_perm {κ : Type} {l₁ l₂ : List (κ × Nat)} (h : l₁.Perm l₂) :
    sumCounts l₁ = sumCounts l₂ := by
  unfold sumCounts
  exact (h.map (fun p => p.2)).sum_eq

theorem sortDesc_perm {κ : Type} (l : List (κ × Nat)) : (sortDesc l).Perm l :=
  List.perm_insertionSort _ l

theorem sortAsc_perm (l : List (String × Nat)) : (sortAsc l).Perm l :=
  List.perm_insertionSort _ l

theorem tally_fold_sums (records : List MetadataRecord) : ∀ t : RawTables,
    sumCounts (records.foldl countRecord t).platforms = sumCounts t.platforms + records.length
    ∧ sumCounts (records.foldl countRecord t).years = sumCounts t.years + records.length
    ∧ sumCounts (records.foldl countRecord t).genres = sumCounts t.genres + records.length
    ∧ sumCounts (records.foldl countRecord t).publishers
        = sumCounts t.publishers + records.length := by
  induction records with
  | nil => intro t; simp
  | cons m ms ih =>
    intro t
    obtain ⟨h1, h2, h3, h4⟩ := ih (countRecord t m)
    simp only [countRecord] at h1 h2 h3 h4
    simp only [List.foldl_cons, List.length_cons, countRecord]
    refine ⟨?_, ?_, ?_, ?_⟩
    · rw [h1, sumCounts_bump]; omega
    · rw [h2, sumCounts_bump]; omega
    · rw [h3, sumCounts_bump]; omega
    · rw [h4, sumCounts_bump]; omega

theorem tally_sums (records : List MetadataRecord) :
    sumCounts (tally records).platforms = records.length
    ∧ sumCounts (tally records).years = records.length
    ∧ sumCounts (tally records).genres = records.length
    ∧ sumCounts (tally records).publishers = records.length := by
  have h := tally_fold_sums records ⟨[], [], [], []⟩
  simpa [tally, sumCounts_nil] using h

/-! ### Helper lemmas: positivity of counts and maxima -/

theorem pos_bump {κ : Type} [DecidableEq κ] (k : κ) {l : List (κ × Nat)}
    (h : ∀ p ∈ l, 0 < p.2) : ∀ p ∈ bump k l, 0 < p.2 := by
  induction l with
  | nil =>
    intro p hp
    simp [bump] at hp
    simp [hp]
  | cons q qs ih =>
    obtain ⟨a, c⟩ := q
    intro p hp
    by_cases hk : a = k
    · simp [bump, hk] at hp
      rcases hp with hp | hp
      · simp [hp]
      · exact h p (List.mem_cons_of_mem _ hp)
    · simp [bump, hk] at hp
      rcases hp with hp | hp
      · subst hp
        exact h (a, c) (List.mem_cons_self _ _)
      · exact ih (fun q hq => h q (List.mem_cons_of_mem _ hq)) p hp

theorem tally_fold_pos (records : List MetadataRecord) : ∀ t : RawTables,
    (∀ p ∈ t.platforms, 0 < p.2) → (∀ p ∈ t.years, 0 < p.2) →
    (∀ p ∈ t.genres, 0 < p.2) → (∀ p ∈ t.publishers, 0 < p.2) →
    (∀ p ∈ (records.foldl countRecord t).platforms, 0 < p.2)
    ∧ (∀ p ∈ (records.foldl countRecord t).years, 0 < p.2)
    ∧ (∀ p ∈ (records.foldl countRecord t).genres, 0 < p.2)
    ∧ (∀ p ∈ (records.foldl countRecord t).publishers, 0 < p.2) := by
  induction records with
  | nil => intro t h1 h2 h3 h4; exact ⟨h1, h2, h3, h4⟩
  | cons m ms ih =>
    intro t h1 h2 h3 h4
    simp only [List.foldl_cons]
    exact ih (countRecord t m) (pos_bump _ h1) (pos_bump _ h2) (pos_bump _ h3) (pos_bump _ h4)

theorem tally_pos (records : List MetadataRecord) :
    (∀ p ∈ (tally records).platforms, 0 < p.2)
    ∧ (∀ p ∈ (tally records).years, 0 < p.2)
    ∧ (∀ p ∈ (tally records).genres, 0 < p.2)
    ∧ (∀ p ∈ (tally records).publishers, 0 < p.2) := by
  have h := tally_fold_pos records ⟨[], [], [], []⟩
  simp only [tally]
  exact h (by simp) (by simp) (by simp) (by simp)

theorem maxVals_nil : maxVals [] = 0 := rfl

theorem maxVals_cons (x : Nat) (xs : List Nat) : maxVals (x :: xs) = max x (maxVals xs) := rfl

theorem le_maxVals {l : List Nat} {x : Nat} (h : x ∈ l) : x ≤ maxVals l := by
  induction l with
  | nil => cases h
  | cons y ys ih =>
    rcases List.mem_cons.mp h with h | h
    · subst h
      exact Nat.le_max_left _ _
    · exact Nat.le_trans (ih h) (Nat.le_max_right _ _)

theorem maxVals_le {l : List Nat} {b : Nat} (h : ∀ x ∈ l, x ≤ b) : maxVals l ≤ b := by
  induction l with
  | nil => exact Nat.zero_le _
  | cons y ys ih =>
    rw [maxVals_cons]
    exact Nat.max_le.mpr ⟨h y (List.mem_cons_self _ _), ih fun x hx => h x (List.mem_cons_of_mem _ hx)⟩

theorem maxVals_perm {l₁ l₂ : List Nat} (h : l₁.Perm l₂) : maxVals l₁ = maxVals l₂ :=
  Nat.le_antisymm
    (maxVals_le fun _ hx => le_maxVals (h.mem_iff.mp hx))
    (maxVals_le fun _ hx => le_maxVals (h.mem_iff.mpr hx))

theorem maxVals_sorted_head {κ : Type} (p : κ × Nat) (ps : List (κ × Nat))
    (hs : List.Pairwise (fun a b : κ × Nat => b.2 ≤ a.2) (p :: ps)) :
    maxVals ((p :: ps).map (fun q => q.2)) = p.2 := by
  have hhead := (List.pairwise_cons.mp hs).1
  have hle : maxVals (ps.map (fun q => q.2)) ≤ p.2 := by
    refine maxVals_le ?_
    intro x hx
    obtain ⟨q, hq, rfl⟩ := List.mem_map.mp hx
    exact hhead q hq
  simp only [List.map_cons, maxVals_cons]
  omega

/-! ### Helper lemmas: order properties of the two sort relations -/

instance descTotal {κ : Type} : IsTotal (κ × Nat) (fun a b => b.2 ≤ a.2) :=
  ⟨fun a b => Nat.le_total b.2 a.2⟩

instance descTrans {κ : Type} : IsTrans (κ × Nat) (fun a b => b.2 ≤ a.2) :=
  ⟨fun _ _ _ hab hbc => Nat.le_trans hbc hab⟩

theorem charListLt_asymm : ∀ x y : List Char, charListLt x y = true → charListLt y x = false := by
  intro x
  induction x with
  | nil =>
    intro y h
    cases y with
    | nil => simp [charListLt] at h
    | cons b bs => simp [charListLt]
  | cons a as ih =>
    intro y h
    cases y with
    | nil => simp [charListLt] at h
    | cons b bs =>
      simp only [charListLt] at h ⊢
      by_cases h1 : a.toNat < b.toNat
      · rw [if_neg (by omega), if_pos h1]
      · by_cases h2 : b.toNat < a.toNat
        · rw [if_neg h1, if_pos h2] at h
          exact absurd h (by simp)
        · rw [if_neg h1, if_neg h2] at h
          rw [if_neg h2, if_neg h1]
          exact ih bs h

theorem charListLt_negtrans : ∀ z x y : List Char, charListLt z x = true →
    charListLt z y = true ∨ charListLt y x = true := by
  intro z
  induction z with
  | nil =>
    intro x y h
    cases x with
    | nil => simp [charListLt] at h
    | cons a as =>
      cases y with
      | nil => right; simp [charListLt]
      | cons b bs => left; simp [charListLt]
  | cons c cs ih =>
    intro x y h
    cases x with
    | nil => simp [charListLt] at h
    | cons a as =>
      simp only [charListLt] at h
      cases y with
      | nil => right; simp [charListLt]
      | cons b bs =>
        by_cases h1 : c.toNat < a.toNat
        · by_cases h2 : c.toNat < b.toNat
          · left; simp only [charListLt]; rw [if_pos h2]
          · right; simp only [charListLt]; rw [if_pos (by omega)]
        · by_cases h1' : a.toNat < c.toNat
          · rw [if_neg h1, if_pos h1'] at h
            exact absurd h (by simp)
          · rw [if_neg h1, if_neg h1'] at h
            by_cases h2 : c.toNat < b.toNat
            · left; simp only [charListLt]; rw [if_pos h2]
            · by_cases h3 : b.toNat < c.toNat
              · right; simp only [charListLt]; rw [if_pos (by omega)]
              · rcases ih as bs h with hl | hr
                · left
                  simp only [charListLt]
                  rw [if_neg h2, if_neg h3]
                  exact hl
                · right
                  simp only [charListLt]
                  rw [if_neg (by omega), if_neg (by omega)]
                  exact hr

instance ascTotal : IsTotal (String × Nat) (fun a b => strLe a.1 b.1 = true) := by
  constructor
  intro a b
  cases hcb : charListLt b.1.data a.1.data with
  | false => left; simp [strLe, hcb]
  | true => right; simp [strLe, charListLt_asymm _ _ hcb]

instance ascTrans : IsTrans (String × Nat) (fun a b => strLe a.1 b.1 = true) := by
  constructor
  intro a b c hab hbc
  simp only [strLe, Bool.not_eq_true'] at hab hbc ⊢
  cases hca : charListLt c.1.data a.1.data with
  | false => rfl
  | true =>
    rcases charListLt_negtrans _ _ b.1.data hca with h | h
    · rw [hbc] at h
      exact absurd h (by simp)
    · rw [hab] at h
      exact absurd h (by simp)

theorem sortDesc_pairwise {κ : Type} (l : List (κ × Nat)) :
    (sortDesc l).Pairwise (fun a b => b.2 ≤ a.2) :=
  List.sorted_insertionSort _ l

theorem sortAsc_pairwise (l : List (String × Nat)) :
    (sortAsc l).Pairwise (fun a b => strLe a.1 b.1 = true) :=
  List.sorted_insertionSort _ l

theorem filter_orderedInsert {α : Type} (r : α → α → Prop) [DecidableRel r] (f : α → Bool)
    (p : α) (H : ∀ q, ¬ r p q → f p = true → f q = false) :
    ∀ l, (List.orderedInsert r p l).filter f
      = if f p then p :: l.filter f else l.filter f := by
  intro l
  induction l with
  | nil => cases hfp : f p <;> simp [List.orderedInsert, List.filter, hfp]
  | cons q l ih =>
    by_cases hr : r p q
    · simp only [List.orderedInsert, if_pos hr]
      cases hfp : f p <;> simp [List.filter_cons, hfp]
    · simp only [List.orderedInsert, if_neg hr]
      cases hfp : f p with
      | true =>
        have hfq : f q = false := H q hr hfp
        simp [List.filter_cons, hfq, ih, hfp]
      | false =>
        simp [List.filter_cons, ih, hfp]

theorem filter_insertionSort {α : Type} (r : α → α → Prop) [DecidableRel r] (f : α → Bool)
    (H : ∀ p q, ¬ r p q → f p = true → f q = false) :
    ∀ l : List α, (List.insertionSort r l).filter f = l.filter f := by
  intro l
  induction l with
  | nil => rfl
  | cons a l ih =>
    simp only [List.insertionSort]
    rw [filter_orderedInsert r f a (fun q hq hfa => H a q hq hfa)]
    cases hfa : f a <;> simp [List.filter_cons, hfa, ih]

theorem sortDesc_filter_stable {κ : Type} (l : List (κ × Nat)) (c : Nat) :
    (sortDesc l).filter (fun p => p.2 == c) = l.filter (fun p => p.2 == c) := by
  apply filter_insertionSort
  intro p q hr hfp
  simp only [beq_iff_eq] at hfp
  simp only [beq_eq_false_iff_ne, ne_eq]
  omega

/-! ### Helper lemmas: the bar renderers -/

theorem barLen_succeeds {c m : Nat} (hm : m ≠ 0) : barLen c m = some (c * 20 / m) := by
  simp [barLen, hm]

theorem barLen_some {c m b : Nat} (h : barLen c m = some b) : m ≠ 0 ∧ b = c * 20 / m := by
  by_cases hm : m = 0
  · rw [hm] at h
    simp [barLen] at h
  · rw [barLen_succeeds hm] at h
    exact ⟨hm, (Option.some_inj.mp h).symm⟩

theorem barLen_le_20 {c m b : Nat} (hcm : c ≤ m) (h : barLen c m = some b) : b ≤ 20 := by
  obtain ⟨hm, rfl⟩ := barLen_some h
  calc c * 20 / m ≤ m * 20 / m := Nat.div_le_div_right (Nat.mul_le_mul_right _ hcm)
    _ = 20 := Nat.mul_div_cancel_left _ (Nat.pos_of_ne_zero hm)

theorem barLen_top {m : Nat} (hm : 0 < m) : barLen m m = some 20 := by
  rw [barLen_succeeds (Nat.pos_iff_ne_zero.mp hm)]
  rw [Nat.mul_div_cancel_left _ hm]

theorem renderBars_isSome {m : Nat} (hm : m ≠ 0) :
    ∀ l : List (String × Nat), (renderBars m l).isSome = true := by
  intro l
  induction l with
  | nil => rfl
  | cons p ps ih =>
    obtain ⟨L, hL⟩ := Option.isSome_iff_exists.mp ih
    simp [renderBars, barLen_succeeds hm, hL]

theorem renderBars_mem {m : Nat} :
    ∀ (l : List (String × Nat)) (L : List Line), renderBars m l = some L →
      ∀ lbl b c, Line.barLine lbl b c ∈ L → m ≠ 0 ∧ b = c * 20 / m ∧ (lbl, c) ∈ l := by
  intro l
  induction l with
  | nil =>
    intro L h lbl b c hmem
    simp [renderBars] at h
    subst h
    cases hmem
  | cons p ps ih =>
    intro L h lbl b c hmem
    rcases hb : barLen p.2 m with _ | b0
    · simp [renderBars, hb] at h
    · rcases hrest : renderBars m ps with _ | L'
      · simp [renderBars, hb, hrest] at h
      · simp [renderBars, hb, hrest] at h
        subst h
        rcases List.mem_cons.mp hmem with heq | hmem'
        · rw [Line.barLine.injEq] at heq
          obtain ⟨rfl, rfl, rfl⟩ := heq
          obtain ⟨hm, hb0⟩ := barLen_some hb
          exact ⟨hm, hb0, List.mem_cons_self _ _⟩
        · obtain ⟨hm, hb', hin⟩ := ih L' hrest lbl b c hmem'
          exact ⟨hm, hb', List.mem_cons_of_mem _ hin⟩

theorem renderBarsV_mem {m : Nat} :
    ∀ (l : List (Value × Nat)) (L : List Line), renderBarsV m l = some L →
      ∀ lbl b c, Line.barLine lbl b c ∈ L →
        m ≠ 0 ∧ b = c * 20 / m ∧ ∃ v, (v, c) ∈ l ∧ fmtS v = some lbl := by
  intro l
  induction l with
  | nil =>
    intro L h lbl b c hmem
    simp [renderBarsV] at h
    subst h
    cases hmem
  | cons p ps ih =>
    intro L h lbl b c hmem
    rcases hb : barLen p.2 m with _ | b0
    · simp [renderBarsV, hb] at h
    · rcases hf : fmtS p.1 with _ | lab
      · simp [renderBarsV, hb, hf] at h
      · rcases hrest : renderBarsV m ps with _ | L'
        · simp [renderBarsV, hb, hf, hrest] at h
        · simp [renderBarsV, hb, hf, hrest] at h
          subst h
          rcases List.mem_cons.mp hmem with heq | hmem'
          · rw [Line.barLine.injEq] at heq
            obtain ⟨rfl, rfl, rfl⟩ := heq
            obtain ⟨hm, hb0⟩ := barLen_some hb
            exact ⟨hm, hb0, p.1, by simp [hf]⟩
          · obtain ⟨hm, hb', v, hin, hfv⟩ := ih L' hrest lbl b c hmem'
            exact ⟨hm, hb', v, List.mem_cons_of_mem _ hin, hfv⟩

theorem renderBarsV_cons {m : Nat} {p : Value × Nat} {ps : List (Value × Nat)} {L : List Line}
    (h : renderBarsV m (p :: ps) = some L) :
    ∃ b lab rest, barLen p.2 m = some b ∧ fmtS p.1 = some lab
      ∧ L = Line.barLine lab b p.2 :: rest := by
  rcases hb : barLen p.2 m with _ | b0
  · simp [renderBarsV, hb] at h
  · rcases hf : fmtS p.1 with _ | lab
    · simp [renderBarsV, hb, hf] at h
    · rcases hrest : renderBarsV m ps with _ | L'
      · simp [renderBarsV, hb, hf, hrest] at h
      · simp [renderBarsV, hb, hf, hrest] at h
        exact ⟨b0, lab, L', rfl, rfl, h.symm⟩

/-! ### Helper lemmas: per-key counts -/

theorem tcount_nil {κ : Type} [DecidableEq κ] (k : κ) : tcount [] k = 0 := rfl

theorem tcount_bump {κ : Type} [DecidableEq κ] (k k' : κ) (l : List (κ × Nat)) :
    tcount (bump k l) k' = tcount l k' + (if k = k' then 1 else 0) := by
  induction l with
  | nil =>
    simp only [bump, tcount]
    split <;> simp [tcount]
  | cons p ps ih =>
    obtain ⟨a, c⟩ := p
    by_cases hak : a = k
    · subst hak
      simp only [bump, if_pos rfl, tcount]
      by_cases hk' : a = k' <;> simp [hk'] <;> omega
    · simp only [bump, if_neg hak, tcount, ih]
      omega

theorem tcount_fold_platform (records : List MetadataRecord) : ∀ (t : RawTables) (k : Value),
    tcount (records.foldl countRecord t).platforms k
      = tcount t.platforms k + records.countP (fun m => mget m "Platform" unknown == k) := by
  induction records with
  | nil => intro t k; simp
  | cons m ms ih =>
    intro t k
    rw [List.foldl_cons, ih (countRecord t m) k]
    have hb : tcount (countRecord t m).platforms k
        = tcount t.platforms k + (if mget m "Platform" unknown = k then 1 else 0) := by
      simp only [countRecord]
      exact tcount_bump _ _ _
    rw [hb, List.countP_cons]
    by_cases hmk : mget m "Platform" unknown = k
    · simp [hmk]
      omega
    · simp [hmk]

theorem tcount_fold_genre (records : List MetadataRecord) : ∀ (t : RawTables) (k : Value),
    tcount (records.foldl countRecord t).genres k
      = tcount t.genres k + records.countP (fun m => mget m "Genre" unknown == k) := by
  induction records with
  | nil => intro t k; simp
  | cons m ms ih =>
    intro t k
    rw [List.foldl_cons, ih (countRecord t m) k]
    have hb : tcount (countRecord t m).genres k
        = tcount t.genres k + (if mget m "Genre" unknown = k then 1 else 0) := by
      simp only [countRecord]
      exact tcount_bump _ _ _
    rw [hb, List.countP_cons]
    by_cases hmk : mget m "Genre" unknown = k
    · simp [hmk]
      omega
    · simp [hmk]

theorem tcount_fold_publisher (records : List MetadataRecord) : ∀ (t : RawTables) (k : Value),
    tcount (records.foldl countRecord t).publishers k
      = tcount t.publishers k + records.countP (fun m => mget m "Publisher" unknown == k) := by
  induction records with
  | nil => intro t k; simp
  | cons m ms ih =>
    intro t k
    rw [List.foldl_cons, ih (countRecord t m) k]
    have hb : tcount (countRecord t m).publishers k
        = tcount t.publishers k + (if mget m "Publisher" unknown = k then 1 else 0) := by
      simp only [countRecord]
      exact tcount_bump _ _ _
    rw [hb, List.countP_cons]
    by_cases hmk : mget m "Publisher" unknown = k
    · simp [hmk]
      omega
    · simp [hmk]

theorem tcount_fold_year (records : List MetadataRecord) : ∀ (t : RawTables) (k : String),
    tcount (records.foldl countRecord t).years k
      = tcount t.years k
        + records.countP (fun m => (mget m "YearOfRelease" unknown).toStr == k) := by
  induction records with
  | nil => intro t k; simp
  | cons m ms ih =>
    intro t k
    rw [List.foldl_cons, ih (countRecord t m) k]
    have hb : tcount (countRecord t m).years k
        = tcount t.years k
          + (if (mget m "YearOfRelease" unknown).toStr = k then 1 else 0) := by
      simp only [countRecord]
      exact tcount_bump _ _ _
    rw [hb, List.countP_cons]
    by_cases hmk : (mget m "YearOfRelease" unknown).toStr = k
    · simp [hmk]
      omega
    · simp [hmk]

/-! ### Helper lemmas: the stats projections on a nonempty record list -/

theorem collection_stats_total (records : List MetadataRecord) :
    (collection_stats records).total_games = records.length := by
  cases records <;> simp [collection_stats]

theorem collection_stats_platforms {m : MetadataRecord} {ms : List MetadataRecord} :
    (collection_stats (m :: ms)).platforms = sortDesc (tally (m :: ms)).platforms := by
  simp [collection_stats]

theorem collection_stats_years {m : MetadataRecord} {ms : List MetadataRecord} :
    (collection_stats (m :: ms)).years = sortAsc (tally (m :: ms)).years := by
  simp [collection_stats]

theorem collection_stats_genres {m : MetadataRecord} {ms : List MetadataRecord} :
    (collection_stats (m :: ms)).genres = sortDesc (tally (m :: ms)).genres := by
  simp [collection_stats]

theorem collection_stats_publishers {m : MetadataRecord} {ms : List MetadataRecord} :
    (collection_stats (m :: ms)).publishers = (sortDesc (tally (m :: ms)).publishers).take 10 := by
  simp [collection_stats]

/-! ### Claim theorems -/

/-- C3 amended: the platform, year and genre tables of the resulting
CollectionStats each sum to the number of input records, and so does the
publisher table before its top-10 truncation; the stored (truncated)
publisher table only satisfies the inequality sum less-or-equal total,
with equality failing as soon as there are more than ten distinct
publishers. -/
theorem c3_sums (records : List MetadataRecord) :
    sumCounts (collection_stats records).platforms = records.length
    ∧ sumCounts (collection_stats records).years = records.length
    ∧ sumCounts (collection_stats records).genres = records.length
    ∧ sumCounts (sortDesc (tally records).publishers) = records.length
    ∧ sumCounts (collection_stats records).publishers ≤ records.length := by
  cases records with
  | nil =>
    refine ⟨?_, ?_, ?_, ?_, ?_⟩ <;> simp [collection_stats, tally, sortDesc, sumCounts_nil]
  | cons m ms =>
    obtain ⟨hp, hy, hg, hpub⟩ := tally_sums (m :: ms)
    rw [collection_stats_platforms, collection_stats_years, collection_stats_genres,
      collection_stats_publishers]
    refine ⟨?_, ?_, ?_, ?_, ?_⟩
    · rw [sumCounts_perm (sortDesc_perm _)]; exact hp
    · rw [sumCounts_perm (sortAsc_perm _)]; exact hy
    · rw [sumCounts_perm (sortDesc_perm _)]; exact hg
    · rw [sumCounts_perm (sortDesc_perm _)]; exact hpub
    · calc sumCounts ((sortDesc (tally (m :: ms)).publishers).take 10)
          ≤ sumCounts (sortDesc (tally (m :: ms)).publishers) := sumCounts_take_le _ _
        _ = (m :: ms).length := by rw [sumCounts_perm (sortDesc_perm _)]; exact hpub

/-- C4 amended: for each of the four tracked fields, a record with the
field absent is counted under the Unknown bucket of the corresponding
frequency table (for the platform, genre and publisher tables that bucket
counts exactly the records whose key is missing or literally `"Unknown"`;
for the year table, whose keys are `str`-coerced, the `"Unknown"` bucket
counts exactly the records whose year is missing or prints as "Unknown").
A record whose tracked field is present with a null value is instead
counted under the null value itself - the null bucket for platform, genre
and publisher, and the `"None"` string bucket for the year table - never
under `"Unknown"`. -/
theorem c4_unknown_bucket (records : List MetadataRecord) :
    (tcount (tally records).platforms unknown
        = records.countP (fun m =>
            match m.lookup "Platform" with
            | none => true
            | some v => v == unknown)
      ∧ tcount (tally records).platforms Value.null
        = records.countP (fun m => m.lookup "Platform" == some Value.null))
    ∧ (tcount (tally records).genres unknown
        = records.countP (fun m =>
            match m.lookup "Genre" with
            | none => true
            | some v => v == unknown)
      ∧ tcount (tally records).genres Value.null
        = records.countP (fun m => m.lookup "Genre" == some Value.null))
    ∧ (tcount (tally records).publishers unknown
        = records.countP (fun m =>
            match m.lookup "Publisher" with
            | none => true
            | some v => v == unknown)
      ∧ tcount (tally records).publishers Value.null
        = records.countP (fun m => m.lookup "Publisher" == some Value.null))
    ∧ (tcount (tally records).years "Unknown"
        = records.countP (fun m =>
            match m.lookup "YearOfRelease" with
            | none => true
            | some v => v.toStr == "Unknown")
      ∧ tcount (tally records).years "None"
        = records.countP (fun m =>
            match m.lookup "YearOfRelease" with
            | none => false
            | some v => v.toStr == "None")) := by
  refine ⟨⟨?_, ?_⟩, ⟨?_, ?_⟩, ⟨?_, ?_⟩, ⟨?_, ?_⟩⟩
  · have h := tcount_fold_platform records ⟨[], [], [], []⟩ unknown
    have hfun : (fun m : MetadataRecord => mget m "Platform" unknown == unknown)
        = (fun m : MetadataRecord => match m.lookup "Platform" with
            | none => true
            | some v => v == unknown) := by
      funext m
      cases hm : m.lookup "Platform" with
      | none => simp [mget, hm]
      | some v => simp [mget, hm]
    rw [← hfun]
    simpa [tally, tcount_nil] using h
  · have h := tcount_fold_platform records ⟨[], [], [], []⟩ Value.null
    have hfun : (fun m : MetadataRecord => mget m "Platform" unknown == Value.null)
        = (fun m : MetadataRecord => m.lookup "Platform" == some Value.null) := by
      funext m
      cases hm : m.lookup "Platform" with
      | none => simp [mget, hm, unknown]
      | some v => cases v <;> simp [mget, hm]
    rw [← hfun]
    simpa [tally, tcount_nil] using h
  · have h := tcount_fold_genre records ⟨[], [], [], []⟩ unknown
    have hfun : (fun m : MetadataRecord => mget m "Genre" unknown == unknown)
        = (fun m : MetadataRecord => match m.lookup "Genre" with
            | none => true
            | some v => v == unknown) := by
      funext m
      cases hm : m.lookup "Genre" with
      | none => simp [mget, hm]
      | some v => simp [mget, hm]
    rw [← hfun]
    simpa [tally, tcount_nil] using h
  · have h := tcount_fold_genre records ⟨[], [], [], []⟩ Value.null
    have hfun : (fun m : MetadataRecord => mget m "Genre" unknown == Value.null)
        = (fun m : MetadataRecord => m.lookup "Genre" == some Value.null) := by
      funext m
      cases hm : m.lookup "Genre" with
      | none => simp [mget, hm, unknown]
      | some v => cases v <;> simp [mget, hm]
    rw [← hfun]
    simpa [tally, tcount_nil] using h
  · have h := tcount_fold_publisher records ⟨[], [], [], []⟩ unknown
    have hfun : (fun m : MetadataRecord => mget m "Publisher" unknown == unknown)
        = (fun m : MetadataRecord => match m.lookup "Publisher" with
            | none => true
            | some v => v == unknown) := by
      funext m
      cases hm : m.lookup "Publisher" with
      | none => simp [mget, hm]
      | some v => simp [mget, hm]
    rw [← hfun]
    simpa [tally, tcount_nil] using h
  · have h := tcount_fold_publisher records ⟨[], [], [], []⟩ Value.null
    have hfun : (fun m : MetadataRecord => mget m "Publisher" unknown == Value.null)
        = (fun m : MetadataRecord => m.lookup "Publisher" == some Value.null) := by
      funext m
      cases hm : m.lookup "Publisher" with
      | none => simp [mget, hm, unknown]
      | some v => cases v <;> simp [mget, hm]
    rw [← hfun]
    simpa [tally, tcount_nil] using h
  · have h := tcount_fold_year records ⟨[], [], [], []⟩ "Unknown"
    have hfun : (fun m : MetadataRecord => (mget m "YearOfRelease" unknown).toStr == "Unknown")
        = (fun m : MetadataRecord => match m.lookup "YearOfRelease" with
            | none => true
            | some v => v.toStr == "Unknown") := by
      funext m
      cases hm : m.lookup "YearOfRelease" with
      | none => simp [mget, hm, unknown, Value.toStr]
      | some v => simp [mget, hm]
    rw [← hfun]
    simpa [tally, tcount_nil] using h
  · have h := tcount_fold_year records ⟨[], [], [], []⟩ "None"
    have hfun : (fun m : MetadataRecord => (mget m "YearOfRelease" unknown).toStr == "None")
        = (fun m : MetadataRecord => match m.lookup "YearOfRelease" with
            | none => false
            | some v => v.toStr == "None") := by
      funext m
      cases hm : m.lookup "YearOfRelease" with
      | none => simp [mget, hm, unknown, Value.toStr]
      | some v => simp [mget, hm]
    rw [← hfun]
    simpa [tally, tcount_nil] using h

/-- C7: in the stored CollectionStats the platform and genre tables are
non-increasing in count with ties kept in first-encountered order (their
filtration at any fixed count equals that of the raw insertion-ordered
tally table), the year table is ascending in lexicographic key order, and
the publisher table is non-increasing in count with at most 10 entries. -/
theorem c7_ordering (records : List MetadataRecord) :
    (collection_stats records).platforms.Pairwise (fun a b => b.2 ≤ a.2)
    ∧ (∀ c : Nat, (collection_stats records).platforms.filter (fun p => p.2 == c)
        = (tally records).platforms.filter (fun p => p.2 == c))
    ∧ (collection_stats records).genres.Pairwise (fun a b => b.2 ≤ a.2)
    ∧ (∀ c : Nat, (collection_stats records).genres.filter (fun p => p.2 == c)
        = (tally records).genres.filter (fun p => p.2 == c))
    ∧ (collection_stats records).years.Pairwise (fun a b => strLe a.1 b.1 = true)
    ∧ (collection_stats records).publishers.Pairwise (fun a b => b.2 ≤ a.2)
    ∧ (collection_stats records).publishers.length ≤ 10 := by
  cases records with
  | nil =>
    refine ⟨?_, ?_, ?_, ?_, ?_, ?_, ?_⟩ <;> simp [collection_stats, tally]
  | cons m ms =>
    rw [collection_stats_platforms, collection_stats_years, collection_stats_genres,
      collection_stats_publishers]
    refine ⟨sortDesc_pairwise _, fun c => sortDesc_filter_stable _ c, sortDesc_pairwise _,
      fun c => sortDesc_filter_stable _ c, sortAsc_pairwise _, ?_, ?_⟩
    · exact (sortDesc_pairwise _).sublist (List.take_sublist _ _)
    · exact List.length_take_le _ _

/-! ### Helper lemmas: minima, maxima, and section success -/

theorem foldl_min_le_init : ∀ (l : List Nat) (a : Nat), l.foldl Nat.min a ≤ a := by
  intro l
  induction l with
  | nil => intro a; exact Nat.le_refl a
  | cons x xs ih =>
    intro a
    exact Nat.le_trans (ih (Nat.min a x)) (Nat.min_le_left a x)

theorem init_le_foldl_max : ∀ (l : List Nat) (a : Nat), a ≤ l.foldl Nat.max a := by
  intro l
  induction l with
  | nil => intro a; exact Nat.le_refl a
  | cons x xs ih =>
    intro a
    exact Nat.le_trans (Nat.le_max_left a x) (ih (Nat.max a x))

theorem listMin_le_listMax {l : List Nat} (h : l ≠ []) : listMin l ≤ listMax l := by
  cases l with
  | nil => exact absurd rfl h
  | cons x xs =>
    calc listMin (x :: xs) = xs.foldl Nat.min x := rfl
      _ ≤ x := foldl_min_le_init xs x
      _ ≤ xs.foldl Nat.max x := init_le_foldl_max xs x
      _ = listMax (x :: xs) := rfl

theorem maxVals_pos_of_mem_pos {κ : Type} {l : List (κ × Nat)} {p : κ × Nat}
    (hp : p ∈ l) (hpos : 0 < p.2) : 0 < maxVals (l.map (fun q => q.2)) := by
  have h : p.2 ≤ maxVals (l.map (fun q => q.2)) :=
    le_maxVals (List.mem_map.mpr ⟨p, hp, rfl⟩)
  omega

theorem yearSection_isSome {years : List (String × Nat)}
    (hpos : ∀ p ∈ years, 0 < p.2) : (yearSection years).isSome = true := by
  cases years with
  | nil => rfl
  | cons p ps =>
    have hm : maxVals ((p :: ps).map (fun q => q.2)) ≠ 0 := by
      have h := maxVals_pos_of_mem_pos (List.mem_cons_self p ps) (hpos p (List.mem_cons_self _ _))
      omega
    obtain ⟨L, hL⟩ := Option.isSome_iff_exists.mp
      (renderBars_isSome hm ((sortAsc (p :: ps)).drop ((p :: ps).length - 10)))
    show ((renderBars (maxVals ((p :: ps).map (fun q => q.2)))
        ((sortAsc (p :: ps)).drop ((p :: ps).length - 10))).map
          (fun bars => Line.yearHeader :: bars)).isSome = true
    rw [hL]
    rfl

/-- C5 amended: the year-range summary, when displayed, shows the minimum
and maximum over the year keys that are nonempty all-digit strings of any
length (not only 4-digit ones), ignoring `"Unknown"` and any non-numeric
key; whenever at least one such key exists the displayed minimum is at
most the displayed maximum, and when none exists the summary is omitted. -/
theorem c5_year_summary (s : CollectionStats) :
    (year_values s.years = [] → summarySection s = [])
    ∧ (year_values s.years ≠ [] →
        summarySection s ≠ []
        ∧ listMin (year_values s.years) ≤ listMax (year_values s.years)
        ∧ Line.yearRange (listMin (year_values s.years)) (listMax (year_values s.years))
            ∈ summarySection s) := by
  constructor
  · intro h
    by_cases hy : s.years.isEmpty
    · simp [summarySection, hy]
    · simp [summarySection, hy, h]
  · intro h
    have hy : s.years.isEmpty = false := by
      cases hsy : s.years with
      | nil =>
        rw [hsy] at h
        exact absurd rfl h
      | cons p ps => simp [hsy]
    have hyv : (year_values s.years).isEmpty = false := by
      cases hsv : year_values s.years with
      | nil => exact absurd hsv h
      | cons v vs => simp
    refine ⟨?_, listMin_le_listMax h, ?_⟩
    · simp [summarySection, hy, hyv]
    · simp [summarySection, hy, hyv]

/-- C5 witness at the concrete records with year keys "85" and "1998". -/
theorem c5_year_summary_witness :
    listMin (year_values (collection_stats shortYearRecs).years)
      ≤ listMax (year_values (collection_stats shortYearRecs).years)
    ∧ Line.yearRange (listMin (year_values (collection_stats shortYearRecs).years))
        (listMax (year_values (collection_stats shortYearRecs).years))
      ∈ summarySection (collection_stats shortYearRecs) := by
  have h := (c5_year_summary (collection_stats shortYearRecs)).2 (by decide)
  exact ⟨h.2.1, h.2.2⟩

/-- C9 amended: the source contains no special case for a zero maximum
count; that case is instead unreachable, because a section is rendered only
when its table is nonempty and every stored count is at least 1, so every
divisor `max(...)` used by a rendered section is positive, and in
particular the year bar loop always succeeds without a division error. -/
theorem c9_no_div_by_zero (records : List MetadataRecord) :
    (yearSection (collection_stats records).years).isSome = true
    ∧ ((collection_stats records).platforms ≠ [] →
        0 < maxVals ((collection_stats records).platforms.map (fun p => p.2)))
    ∧ ((collection_stats records).genres ≠ [] →
        0 < maxVals ((collection_stats records).genres.map (fun p => p.2)))
    ∧ ((collection_stats records).years ≠ [] →
        0 < maxVals ((collection_stats records).years.map (fun p => p.2))) := by
  cases records with
  | nil =>
    refine ⟨rfl, ?_, ?_, ?_⟩ <;> (intro h; exact absurd (by simp [collection_stats]) h)
  | cons m ms =>
    obtain ⟨hP, hY, hG, _⟩ := tally_pos (m :: ms)
    have hposP : ∀ p ∈ (collection_stats (m :: ms)).platforms, 0 < p.2 := by
      rw [collection_stats_platforms]
      intro p hp
      exact hP p ((sortDesc_perm _).mem_iff.mp hp)
    have hposY : ∀ p ∈ (collection_stats (m :: ms)).years, 0 < p.2 := by
      rw [collection_stats_years]
      intro p hp
      exact hY p ((sortAsc_perm _).mem_iff.mp hp)
    have hposG : ∀ p ∈ (collection_stats (m :: ms)).genres, 0 < p.2 := by
      rw [collection_stats_genres]
      intro p hp
      exact hG p ((sortDesc_perm _).mem_iff.mp hp)
    refine ⟨yearSection_isSome hposY, ?_, ?_, ?_⟩
    · intro hne
      cases hl : (collection_stats (m :: ms)).platforms with
      | nil => exact absurd hl hne
      | cons p ps =>
        refine maxVals_pos_of_mem_pos (List.mem_cons_self p ps) ?_
        refine hposP p ?_
        rw [hl]
        exact List.mem_cons_self _ _
    · intro hne
      cases hl : (collection_stats (m :: ms)).genres with
      | nil => exact absurd hl hne
      | cons p ps =>
        refine maxVals_pos_of_mem_pos (List.mem_cons_self p ps) ?_
        refine hposG p ?_
        rw [hl]
        exact List.mem_cons_self _ _
    · intro hne
      cases hl : (collection_stats (m :: ms)).years with
      | nil => exact absurd hl hne
      | cons p ps =>
        refine maxVals_pos_of_mem_pos (List.mem_cons_self p ps) ?_
        refine hposY p ?_
        rw [hl]
        exact List.mem_cons_self _ _

/-- C9 witness on one concrete record: the platform divisor is positive
and the year bar loop succeeds. -/
theorem c9_no_div_by_zero_witness :
    0 < maxVals ((collection_stats [demoRecord]).platforms.map (fun p => p.2))
    ∧ (yearSection (collection_stats [demoRecord]).years).isSome = true := by
  have h := c9_no_div_by_zero [demoRecord]
  exact ⟨h.2.1 (by decide), h.1⟩

/-! ### Helper lemma: positions of enumerated search entries -/

theorem searchEntries_get? :
    ∀ (ms : List MetadataRecord) (j i0 : Nat) (m : MetadataRecord), ms.get? j = some m →
      (searchEntries i0 ms).get? j
        = some (SLine.entry (i0 + j + 1) (mget m "Name" unknown).toStr
            (mget m "Platform" unknown).toStr (mget m "YearOfRelease" unknown).toStr
            (mget m "Genre" unknown).toStr) := by
  intro ms
  induction ms with
  | nil =>
    intro j i0 m hm
    simp at hm
  | cons m0 ms ih =>
    intro j i0 m hm
    cases j with
    | zero =>
      rw [List.get?_cons_zero] at hm
      obtain rfl := Option.some_inj.mp hm
      rfl
    | succ j =>
      rw [List.get?_cons_succ] at hm
      have h := ih j (i0 + 1) m hm
      calc (searchEntries i0 (m0 :: ms)).get? (j + 1)
          = (searchEntries (i0 + 1) ms).get? j := rfl
        _ = some (SLine.entry (i0 + 1 + j + 1) (mget m "Name" unknown).toStr
              (mget m "Platform" unknown).toStr (mget m "YearOfRelease" unknown).toStr
              (mget m "Genre" unknown).toStr) := h
        _ = some (SLine.entry (i0 + (j + 1) + 1) (mget m "Name" unknown).toStr
              (mget m "Platform" unknown).toStr (mget m "YearOfRelease" unknown).toStr
              (mget m "Genre" unknown).toStr) := by
            have harith : i0 + 1 + j + 1 = i0 + (j + 1) + 1 := by omega
            rw [harith]

/-- C8: the search-result rendering prints exactly the no-results notice
when and only when the result list is empty; otherwise the item rendered
for the result at 0-based index i sits right after the header at output
position i+1, carries the 1-based index i+1, and shows the Name, Platform,
Year and Genre values, each defaulting to `"Unknown"` when the field is
absent. -/
theorem c8_search_rendering (results : List MetadataRecord) :
    (results = [] ↔ test_search results = [SLine.noResults])
    ∧ ∀ (i : Nat) (m : MetadataRecord), results.get? i = some m →
        (test_search results).get? (i + 1)
          = some (SLine.entry (i + 1) (mget m "Name" unknown).toStr
              (mget m "Platform" unknown).toStr (mget m "YearOfRelease" unknown).toStr
              (mget m "Genre" unknown).toStr) := by
  constructor
  · constructor
    · intro h
      subst h
      rfl
    · intro h
      cases results with
      | nil => rfl
      | cons m0 ms => simp [test_search] at h
  · intro i m hm
    cases results with
    | nil => simp at hm
    | cons m0 ms =>
      have hts : test_search (m0 :: ms) = SLine.topResults :: searchEntries 0 (m0 :: ms) := by
        simp [test_search]
      rw [hts, List.get?_cons_succ]
      have h := searchEntries_get? (m0 :: ms) i 0 m hm
      simpa using h

/-- C8 witness: the empty result list renders only the notice, and a
one-record result list (with every field except the name absent) renders
a 1-based entry defaulting the missing fields to Unknown. -/
theorem c8_search_rendering_witness :
    test_search [] = [SLine.noResults]
    ∧ (test_search [[("Name", Value.str "Gran Turismo")]]).get? 1
        = some (SLine.entry 1 "Gran Turismo" "Unknown" "Unknown" "Unknown") := by
  constructor
  · exact (c8_search_rendering []).1.mp rfl
  · have h := (c8_search_rendering [[("Name", Value.str "Gran Turismo")]]).2 0
      [("Name", Value.str "Gran Turismo")] rfl
    simpa using h

/-! ### Helper lemmas: bar sections of sorted tables -/

theorem take10_maxVals_eq {κ : Type} {l : List (κ × Nat)}
    (hs : l.Pairwise (fun a b => b.2 ≤ a.2)) :
    maxVals ((l.take 10).map (fun p => p.2)) = maxVals (l.map (fun p => p.2)) := by
  cases l with
  | nil => rfl
  | cons p ps =>
    rw [List.take_succ_cons, maxVals_sorted_head p ps hs]
    exact maxVals_sorted_head p _ (hs.sublist ((List.take_sublist 9 ps).cons₂ p))

theorem descBars_spec {l : List (Value × Nat)} (hs : l.Pairwise (fun a b => b.2 ≤ a.2))
    (hpos : ∀ p ∈ l, 0 < p.2) {bars : List Line}
    (h : renderBarsV (maxVals (l.map (fun p => p.2))) (l.take 10) = some bars) :
    (∀ lbl b c, Line.barLine lbl b c ∈ bars → b = c * 20 / maxVals (l.map (fun p => p.2)))
    ∧ (l ≠ [] → ∃ lbl c rest, bars = Line.barLine lbl 20 c :: rest) := by
  constructor
  · intro lbl b c hmem
    obtain ⟨_, hb, _⟩ := renderBarsV_mem _ _ h lbl b c hmem
    exact hb
  · intro hne
    cases l with
    | nil => exact absurd rfl hne
    | cons p ps =>
      rw [List.take_succ_cons] at h
      obtain ⟨b, lab, rest, hbl, hf, hbars⟩ := renderBarsV_cons h
      have hmax : maxVals ((p :: ps).map (fun q => q.2)) = p.2 := maxVals_sorted_head p ps hs
      have hppos : 0 < p.2 := hpos p (List.mem_cons_self _ _)
      rw [hmax, barLen_top hppos] at hbl
      have hb20 : b = 20 := (Option.some_inj.mp hbl).symm
      exact ⟨lab, p.2, rest, by rw [hbars, hb20]⟩

theorem platformSection_some_cons {l : List (Value × Nat)} {bars : List Line}
    (h : platformSection l = some (Line.platformHeader :: bars)) :
    renderBarsV (maxVals (l.map (fun p => p.2))) (l.take 10) = some bars ∧ l ≠ [] := by
  cases l with
  | nil => simp [platformSection] at h
  | cons p ps =>
    have h' : (renderBarsV (maxVals ((p :: ps).map (fun q => q.2))) ((p :: ps).take 10)).map
        (fun bars => Line.platformHeader :: bars) = some (Line.platformHeader :: bars) := h
    obtain ⟨bars0, hb0, heq⟩ := Option.map_eq_some'.mp h'
    have hbars : bars0 = bars := by
      injection heq
    rw [hbars] at hb0
    exact ⟨hb0, List.cons_ne_nil _ _⟩

theorem genreSection_some_cons {l : List (Value × Nat)} {bars : List Line}
    (h : genreSection l = some (Line.genreHeader :: bars)) :
    renderBarsV (maxVals (l.map (fun p => p.2))) (l.take 10) = some bars ∧ l ≠ [] := by
  cases l with
  | nil => simp [genreSection] at h
  | cons p ps =>
    have h' : (renderBarsV (maxVals ((p :: ps).map (fun q => q.2))) ((p :: ps).take 10)).map
        (fun bars => Line.genreHeader :: bars) = some (Line.genreHeader :: bars) := h
    obtain ⟨bars0, hb0, heq⟩ := Option.map_eq_some'.mp h'
    have hbars : bars0 = bars := by
      injection heq
    rw [hbars] at hb0
    exact ⟨hb0, List.cons_ne_nil _ _⟩

theorem yearSection_some_cons {l : List (String × Nat)} {bars : List Line}
    (h : yearSection l = some (Line.yearHeader :: bars)) :
    renderBars (maxVals (l.map (fun p => p.2))) ((sortAsc l).drop (l.length - 10)) = some bars := by
  cases l with
  | nil => simp [yearSection] at h
  | cons p ps =>
    have h' : (renderBars (maxVals ((p :: ps).map (fun q => q.2)))
        ((sortAsc (p :: ps)).drop ((p :: ps).length - 10))).map
          (fun bars => Line.yearHeader :: bars) = some (Line.yearHeader :: bars) := h
    obtain ⟨bars0, hb0, heq⟩ := Option.map_eq_some'.mp h'
    have hbars : bars0 = bars := by
      injection heq
    rw [hbars] at hb0
    exact hb0

/-- C1 amended: in every rendered bar section the divisor of the scaling
formula is the maximum count of the whole stored table, not the maximum of
the displayed subset. For the platform and genre sections the two agree
(descending sort puts a maximal entry first, so truncation to ten keeps the
maximum) and the top displayed entry has a bar of exactly 20 units; for the
year section the divisor is still the full-table maximum even though the
displayed last-ten subset may exclude it, so the top displayed year bar can
be shorter than 20. -/
theorem c1_bar_scaling (records : List MetadataRecord) :
    (maxVals (((collection_stats records).platforms.take 10).map (fun p => p.2))
        = maxVals ((collection_stats records).platforms.map (fun p => p.2))
      ∧ maxVals (((collection_stats records).genres.take 10).map (fun p => p.2))
        = maxVals ((collection_stats records).genres.map (fun p => p.2)))
    ∧ (∀ bars, platformSection (collection_stats records).platforms
          = some (Line.platformHeader :: bars) →
        (∀ lbl b c, Line.barLine lbl b c ∈ bars →
          b = c * 20 / maxVals ((collection_stats records).platforms.map (fun p => p.2)))
        ∧ ∃ lbl c rest, bars = Line.barLine lbl 20 c :: rest)
    ∧ (∀ bars, genreSection (collection_stats records).genres
          = some (Line.genreHeader :: bars) →
        (∀ lbl b c, Line.barLine lbl b c ∈ bars →
          b = c * 20 / maxVals ((collection_stats records).genres.map (fun p => p.2)))
        ∧ ∃ lbl c rest, bars = Line.barLine lbl 20 c :: rest)
    ∧ (∀ bars, yearSection (collection_stats records).years
          = some (Line.yearHeader :: bars) →
        ∀ lbl b c, Line.barLine lbl b c ∈ bars →
          b = c * 20 / maxVals ((collection_stats records).years.map (fun p => p.2))) := by
  refine ⟨⟨?_, ?_⟩, ?_, ?_, ?_⟩
  · cases records with
    | nil => rfl
    | cons m ms =>
      rw [collection_stats_platforms]
      exact take10_maxVals_eq (sortDesc_pairwise _)
  · cases records with
    | nil => rfl
    | cons m ms =>
      rw [collection_stats_genres]
      exact take10_maxVals_eq (sortDesc_pairwise _)
  · intro bars h
    cases records with
    | nil => simp [collection_stats, platformSection] at h
    | cons m ms =>
      rw [collection_stats_platforms] at h ⊢
      obtain ⟨hrb, hne⟩ := platformSection_some_cons h
      have hpos : ∀ p ∈ sortDesc (tally (m :: ms)).platforms, 0 < p.2 := fun p hp =>
        (tally_pos _).1 p ((sortDesc_perm _).mem_iff.mp hp)
      have hspec := descBars_spec (sortDesc_pairwise _) hpos hrb
      exact ⟨hspec.1, hspec.2 hne⟩
  · intro bars h
    cases records with
    | nil => simp [collection_stats, genreSection] at h
    | cons m ms =>
      rw [collection_stats_genres] at h ⊢
      obtain ⟨hrb, hne⟩ := genreSection_some_cons h
      have hpos : ∀ p ∈ sortDesc (tally (m :: ms)).genres, 0 < p.2 := fun p hp =>
        (tally_pos _).2.2.1 p ((sortDesc_perm _).mem_iff.mp hp)
      have hspec := descBars_spec (sortDesc_pairwise _) hpos hrb
      exact ⟨hspec.1, hspec.2 hne⟩
  · intro bars h lbl b c hmem
    cases records with
    | nil => simp [collection_stats, yearSection] at h
    | cons m ms =>
      rw [collection_stats_years] at h ⊢
      have hrb := yearSection_some_cons h
      obtain ⟨_, hb, _⟩ := renderBars_mem _ _ hrb lbl b c hmem
      exact hb

/-- C1 witness at one concrete record: the displayed platform maximum
equals the full-table maximum and the rendered platform section starts
with a bar of exactly 20 units. -/
theorem c1_bar_scaling_witness :
    maxVals (((collection_stats [demoRecord]).platforms.take 10).map (fun p => p.2))
      = maxVals ((collection_stats [demoRecord]).platforms.map (fun p => p.2))
    ∧ ∃ lbl c rest, [Line.barLine "PS1" 20 1] = Line.barLine lbl 20 c :: rest := by
  have h := c1_bar_scaling [demoRecord]
  exact ⟨h.1.1, (h.2.1 [Line.barLine "PS1" 20 1] (by decide)).2⟩

/-! ### Helper lemmas: bounds on rendered bars -/

theorem barsV_le {full disp : List (Value × Nat)} {bars : List Line}
    (hsub : ∀ p, p ∈ disp → p ∈ full)
    (h : renderBarsV (maxVals (full.map (fun p => p.2))) disp = some bars) :
    ∀ lbl b c, Line.barLine lbl b c ∈ bars → b ≤ 20 := by
  intro lbl b c hmem
  obtain ⟨hm, hb, v, hin, _⟩ := renderBarsV_mem _ _ h lbl b c hmem
  have hc : c ≤ maxVals (full.map (fun p => p.2)) :=
    le_maxVals (List.mem_map.mpr ⟨(v, c), hsub _ hin, rfl⟩)
  exact barLen_le_20 hc (by rw [barLen_succeeds hm, hb])

theorem bars_le {full disp : List (String × Nat)} {bars : List Line}
    (hsub : ∀ p, p ∈ disp → p ∈ full)
    (h : renderBars (maxVals (full.map (fun p => p.2))) disp = some bars) :
    ∀ lbl b c, Line.barLine lbl b c ∈ bars → b ≤ 20 := by
  intro lbl b c hmem
  obtain ⟨hm, hb, hin⟩ := renderBars_mem _ _ h lbl b c hmem
  have hc : c ≤ maxVals (full.map (fun p => p.2)) :=
    le_maxVals (List.mem_map.mpr ⟨(lbl, c), hsub _ hin, rfl⟩)
  exact barLen_le_20 hc (by rw [barLen_succeeds hm, hb])

theorem platformSection_bars_le {l : List (Value × Nat)} {L : List Line}
    (h : platformSection l = some L) : ∀ lbl b c, Line.barLine lbl b c ∈ L → b ≤ 20 := by
  intro lbl b c hmem
  cases l with
  | nil =>
    simp [platformSection] at h
    subst h
    cases hmem
  | cons p ps =>
    have h' : (renderBarsV (maxVals ((p :: ps).map (fun q => q.2))) ((p :: ps).take 10)).map
        (fun bars => Line.platformHeader :: bars) = some L := h
    obtain ⟨bars0, hb0, heq⟩ := Option.map_eq_some'.mp h'
    subst heq
    rcases List.mem_cons.mp hmem with habs | hmem'
    · exact Line.noConfusion habs
    · exact barsV_le (fun q hq => List.take_subset _ _ hq) hb0 lbl b c hmem'

theorem genreSection_bars_le {l : List (Value × Nat)} {L : List Line}
    (h : genreSection l = some L) : ∀ lbl b c, Line.barLine lbl b c ∈ L → b ≤ 20 := by
  intro lbl b c hmem
  cases l with
  | nil =>
    simp [genreSection] at h
    subst h
    cases hmem
  | cons p ps =>
    have h' : (renderBarsV (maxVals ((p :: ps).map (fun q => q.2))) ((p :: ps).take 10)).map
        (fun bars => Line.genreHeader :: bars) = some L := h
    obtain ⟨bars0, hb0, heq⟩ := Option.map_eq_some'.mp h'
    subst heq
    rcases List.mem_cons.mp hmem with habs | hmem'
    · exact Line.noConfusion habs
    · exact barsV_le (fun q hq => List.take_subset _ _ hq) hb0 lbl b c hmem'

theorem yearSection_bars_le {l : List (String × Nat)} {L : List Line}
    (h : yearSection l = some L) : ∀ lbl b c, Line.barLine lbl b c ∈ L → b ≤ 20 := by
  intro lbl b c hmem
  cases l with
  | nil =>
    simp [yearSection] at h
    subst h
    cases hmem
  | cons p ps =>
    have h' : (renderBars (maxVals ((p :: ps).map (fun q => q.2)))
        ((sortAsc (p :: ps)).drop ((p :: ps).length - 10))).map
          (fun bars => Line.yearHeader :: bars) = some L := h
    obtain ⟨bars0, hb0, heq⟩ := Option.map_eq_some'.mp h'
    subst heq
    rcases List.mem_cons.mp hmem with habs | hmem'
    · exact Line.noConfusion habs
    · refine bars_le ?_ hb0 lbl b c hmem'
      intro q hq
      exact (sortAsc_perm _).mem_iff.mp (List.drop_subset _ _ hq)

theorem publisherSection_no_bar (l : List (Value × Nat)) (lbl : String) (b c : Nat) :
    Line.barLine lbl b c ∉ publisherSection l := by
  intro hmem
  by_cases hy : l.isEmpty
  · simp [publisherSection, hy] at hmem
  · simp [publisherSection, hy] at hmem
    obtain ⟨p, _, heq⟩ := List.mem_map.mp (List.take_subset _ _ hmem)
    exact Line.noConfusion heq

theorem summarySection_no_bar (s : CollectionStats) (lbl : String) (b c : Nat) :
    Line.barLine lbl b c ∉ summarySection s := by
  intro hmem
  by_cases h1 : s.years.isEmpty
  · simp [summarySection, h1] at hmem
  · by_cases h2 : (year_values s.years).isEmpty
    · simp [summarySection, h1, h2] at hmem
    · simp [summarySection, h1, h2] at hmem

/-- C10: whenever the dashboard renders successfully, every bar line of the
output has a length of at most 20 units, because each displayed count is at
most the table-wide maximum count used as the divisor. -/
theorem c10_bar_bounds (collection : Option (List MetadataRecord)) (lines : List Line)
    (h : text_dashboard collection = some lines) :
    ∀ lbl b c, Line.barLine lbl b c ∈ lines → b ≤ 20 := by
  intro lbl b c hmem
  cases collection with
  | none =>
    have hl : [Line.banner, Line.noData] = lines := Option.some_inj.mp h
    rw [← hl] at hmem
    simp at hmem
  | some records =>
    have h' : (platformSection (collection_stats records).platforms).bind (fun pl =>
        (genreSection (collection_stats records).genres).bind (fun gl =>
        (yearSection (collection_stats records).years).bind (fun yl =>
        some ([Line.banner, Line.statsHeader,
            Line.totalGames (collection_stats records).total_games]
          ++ pl ++ gl ++ yl
          ++ publisherSection (collection_stats records).publishers
          ++ summarySection (collection_stats records)
          ++ [Line.footer])))) = some lines := h
    rcases hpl : platformSection (collection_stats records).platforms with _ | pl
    · rw [hpl] at h'
      simp at h'
    rcases hgl : genreSection (collection_stats records).genres with _ | gl
    · rw [hpl, hgl] at h'
      simp at h'
    rcases hyl : yearSection (collection_stats records).years with _ | yl
    · rw [hpl, hgl, hyl] at h'
      simp at h'
    rw [hpl, hgl, hyl] at h'
    have h'' : some ([Line.banner, Line.statsHeader,
          Line.totalGames (collection_stats records).total_games]
        ++ pl ++ gl ++ yl
        ++ publisherSection (collection_stats records).publishers
        ++ summarySection (collection_stats records)
        ++ [Line.footer]) = some lines := h'
    rw [← Option.some_inj.mp h''] at hmem
    simp only [List.mem_append] at hmem
    rcases hmem with (((((hbase | hpl') | hgl') | hyl') | hpub') | hsum') | hfoot'
    · simp at hbase
    · exact platformSection_bars_le hpl lbl b c hpl'
    · exact genreSection_bars_le hgl lbl b c hgl'
    · exact yearSection_bars_le hyl lbl b c hyl'
    · exact absurd hpub' (publisherSection_no_bar _ lbl b c)
    · exact absurd hsum' (summarySection_no_bar _ lbl b c)
    · simp at hfoot'

/-- The full dashboard output on the single demonstration record. -/
def demoLines : List Line :=
  [Line.banner, Line.statsHeader, Line.totalGames 1, Line.platformHeader,
   Line.barLine "PS1" 20 1, Line.genreHeader, Line.barLine "Racing" 20 1,
   Line.yearHeader, Line.barLine "1997" 20 1, Line.publisherHeader,
   Line.publisherLine "Unknown" 1, Line.summaryHeader, Line.yearRange 1997 1997,
   Line.uniquePlatforms 1, Line.uniqueGenres 1, Line.uniquePublishers 1, Line.footer]

/-- C10 witness at one concrete record whose rendered platform bar has
length 20. -/
theorem c10_bar_bounds_witness :
    text_dashboard (some [demoRecord]) = some demoLines ∧ (20 : Nat) ≤ 20 := by
  refine ⟨by decide, ?_⟩
  exact c10_bar_bounds (some [demoRecord]) demoLines (by decide) "PS1" 20 1 (by decide)
